import Mathlib

/-!
Verification development for the sshRemoteControl repository.

The device session protocol layer (`lib/Devices.py`) and the multi-target
orchestration engine (`lib/Activity.py`) are shallowly embedded here.

The interactive remote shell is modelled by a `Script`: the list of results
of the successive drain loops (`while recv_ready(): recv(...).decode(...)`)
and the list of outcomes of the successive `send` calls.  Each received
chunk either decodes as UTF-8 or raises a decode error; each send either
accepts the bytes, returns zero, or raises a transport exception.  Python
functions that can let an exception escape to their caller return a
`PyRes`-style sum with an explicit `exn` case.  Strings processed by the
credential codec are modelled as lists of Unicode code points.
-/

set_option maxHeartbeats 1000000

namespace SSHRC

/-- One chunk received from the remote shell: either text that decodes as
UTF-8, or undecodable bytes (so that `.decode("utf-8")` raises). -/
inductive Chunk where
  | ok (s : String)
  | bad
deriving DecidableEq

/-- Outcome of one `RemoteShell.send` call: bytes accepted, zero bytes
accepted, or a transport (SSH-level) exception raised. -/
inductive SendEv where
  | acc
  | zero
  | exn
deriving DecidableEq

/-- The scripted behaviour of one transport session: the successive results
of the drain loops and of the `send` calls. -/
structure Script where
  drains : List (List Chunk)
  sends : List SendEv
deriving DecidableEq

/-- Consume the next drain-loop result; an exhausted script buffers nothing
(`recv_ready()` is immediately false). -/
def Script.nextDrain : Script → List Chunk × Script
  | ⟨[], ss⟩ => ([], ⟨[], ss⟩)
  | ⟨d :: ds, ss⟩ => (d, ⟨ds, ss⟩)

/-- Consume the next send outcome; an exhausted script accepts the bytes. -/
def Script.nextSend : Script → SendEv × Script
  | ⟨ds, []⟩ => (.acc, ⟨ds, []⟩)
  | ⟨ds, s :: ss⟩ => (s, ⟨ds, ss⟩)

/-- All chunks of one drain decode without error. -/
def chunksOk : List Chunk → Bool
  | [] => true
  | .ok _ :: rest => chunksOk rest
  | .bad :: _ => false

/-- The text chunks successfully processed before a decode error stops a
drain loop (all of them when every chunk decodes). -/
def okStrs : List Chunk → List String
  | [] => []
  | .ok s :: rest => s :: okStrs rest
  | .bad :: _ => []

/-- Final value of a `data` variable reassigned on every iteration of a
drain loop; `none` models the variable never being assigned at all. -/
def lastString? : List Chunk → Option String
  | [] => none
  | .ok s :: rest => some ((lastString? rest).getD s)
  | .bad :: rest => lastString? rest

/-- Same, for the loops the source precedes with `data = ""`. -/
def lastString (l : List Chunk) : String := (lastString? l).getD ""

/-- Literal substring search: the model of Python `s.find(pat) != -1`. -/
def infixOf (pat s : List Char) : Bool :=
  match s with
  | [] => pat.isEmpty
  | _ :: rest => pat.isPrefixOf s || infixOf pat rest

/-- String-level wrapper of `infixOf`. -/
def strContains (s pat : String) : Bool := infixOf pat.data s.data

/-- The four device classes of `lib/Devices.py`. -/
inductive DeviceKind where
  | generic
  | ciscoIOS
  | ciscoWLC
  | linux
deriving DecidableEq

/-- Character-wise lower-casing, the model of Python `str.lower()`. -/
def strLower (s : String) : String := ⟨s.data.map Char.toLower⟩

/-- Model of `Devices.createDevice`: the device class is chosen from the
lower-cased type string, any unrecognized string giving the default. -/
def createDevice (hostname : String) (typeClass : String) : String × DeviceKind :=
  if strLower typeClass = "ciscoios" then (hostname, .ciscoIOS)
  else if strLower typeClass = "ciscowlc" then (hostname, .ciscoWLC)
  else if strLower typeClass = "linux" then (hostname, .linux)
  else (hostname, .generic)

/-- Result of a Python method call as its caller sees it: a truthy return,
a falsy return (`False` or `None`), or an uncaught exception. -/
inductive PyRes where
  | tt
  | ff
  | exn
deriving DecidableEq

/-- One drain loop of `Device.run`: each decoded chunk is appended to the
output file; a decode error stops the loop, keeping the earlier writes. -/
def drainWrite : List Chunk → List String → List String × Bool
  | [], file => (file, true)
  | .ok s :: rest, file => drainWrite rest (file ++ [s])
  | .bad :: _, file => (file, false)

/-- The per-command loop of `Device.run`: send the command (a zero-byte send
raises `IOError`, caught because `socket.error` is `OSError`; a transport
exception is caught as well), settle, then drain and append the output. -/
def deviceRunLoop : List String → Script → List String → Bool × List String × Script
  | [], sc, file => (true, file, sc)
  | _ :: cs, sc, file =>
    let (s, sc1) := sc.nextSend
    match s with
    | .zero => (false, file, sc1)
    | .exn => (false, file, sc1)
    | .acc =>
      let (d, sc2) := sc1.nextDrain
      let (file1, ok) := drainWrite d file
      if ok then deviceRunLoop cs sc2 file1 else (false, file1, sc2)

/-- Model of `Device.run`: drain residual unsolicited output into the file
first, then run the commands in order. -/
def deviceRun (commands : List String) (sc : Script) (file : List String) :
    Bool × List String × Script :=
  let (d, sc1) := sc.nextDrain
  let (file1, ok) := drainWrite d file
  if ok then deviceRunLoop commands sc1 file1 else (false, file1, sc1)

/-- Absence of any failing event in the command phase: the initial drain
decodes, and for each of the `n` commands the send accepts bytes and the
following drain decodes. -/
def noRunFailureLoop : Nat → Script → Bool
  | 0, _ => true
  | n + 1, sc =>
    let (s, sc1) := sc.nextSend
    match s with
    | .acc =>
      let (d, sc2) := sc1.nextDrain
      chunksOk d && noRunFailureLoop n sc2
    | _ => false

/-- See `noRunFailureLoop`; covers the initial residual drain as well. -/
def noRunFailure (n : Nat) (sc : Script) : Bool :=
  let (d, sc1) := sc.nextDrain
  chunksOk d && noRunFailureLoop n sc1

/-- Model of `DeviceCiscoIOS.superuser`.  Drains noise, sends `enable`,
keeps the last drained chunk, and only when it shows `Password:` sends the
password and checks the next drained chunk for `#`.  Only `SSHException`
(a send's `exn`) is caught; a decode error in a drain propagates.  The
middle component records whether the password send was attempted. -/
def iosSuperuser (password : String) (sc : Script) : PyRes × Bool × Script :=
  let (d1, sc1) := sc.nextDrain
  if chunksOk d1 then
    let (s1, sc2) := sc1.nextSend
    match s1 with
    | .exn => (.ff, false, sc2)
    | _ =>
      let (d2, sc3) := sc2.nextDrain
      if chunksOk d2 then
        if strContains (lastString d2) "Password:" then
          let (s2, sc4) := sc3.nextSend
          match s2 with
          | .exn => (.ff, true, sc4)
          | _ =>
            let (d3, sc5) := sc4.nextDrain
            if chunksOk d3 then
              if strContains (lastString d3) "#" then (.tt, true, sc5)
              else (.ff, true, sc5)
            else (.exn, true, sc5)
        else (.ff, false, sc3)
      else (.exn, false, sc3)
  else (.exn, false, sc1)

/-- Model of `DeviceCiscoWLC.login`.  Re-sends the credentials; the second
drain loop reassigns `data` without initialising it, so when that drain
yields no chunk the later `data.find(">")` raises `UnboundLocalError`,
which the `except` clause does not catch (`exn`).  A transport exception in
a send is caught and gives `ff`; a decode error propagates. -/
def wlcLogin (sc : Script) : PyRes × Script :=
  let (s1, sc1) := sc.nextSend
  match s1 with
  | .exn => (.ff, sc1)
  | _ =>
    let (d1, sc2) := sc1.nextDrain
    if chunksOk d1 then
      let (s2, sc3) := sc2.nextSend
      match s2 with
      | .exn => (.ff, sc3)
      | _ =>
        let (d2, sc4) := sc3.nextDrain
        if chunksOk d2 then
          match lastString? d2 with
          | none => (.exn, sc4)
          | some data =>
            if strContains data ">" then
              let (s3, sc5) := sc4.nextSend
              match s3 with
              | .exn => (.ff, sc5)
              | _ => (.tt, sc5)
            else (.ff, sc4)
        else (.exn, sc4)
    else (.exn, sc2)

/-- Model of `DeviceCiscoIOS.logout`: drain noise, send `end`, send `exit`,
then close.  Transport exceptions are caught and give `ff` without reaching
the close; a decode error in the drain propagates.  The middle component
records whether `Device.logout` (the transport close) was invoked. -/
def iosLogout (sc : Script) : PyRes × Bool × Script :=
  let (d, sc1) := sc.nextDrain
  if chunksOk d then
    let (s1, sc2) := sc1.nextSend
    match s1 with
    | .exn => (.ff, false, sc2)
    | _ =>
      let (s2, sc3) := sc2.nextSend
      match s2 with
      | .exn => (.ff, false, sc3)
      | _ => (.tt, true, sc3)
  else (.exn, false, sc1)

/-- Model of `DeviceCiscoWLC.logout`: send `end`, send `exit`, drain keeping
the last chunk, answer `No` if it shows `save?`, then close. -/
def wlcLogout (sc : Script) : PyRes × Bool × Script :=
  let (s1, sc1) := sc.nextSend
  match s1 with
  | .exn => (.ff, false, sc1)
  | _ =>
    let (s2, sc2) := sc1.nextSend
    match s2 with
    | .exn => (.ff, false, sc2)
    | _ =>
      let (d, sc3) := sc2.nextDrain
      if chunksOk d then
        if strContains (lastString d) "save?" then
          let (s3, sc4) := sc3.nextSend
          match s3 with
          | .exn => (.ff, false, sc4)
          | _ => (.tt, true, sc4)
        else (.tt, true, sc3)
      else (.exn, false, sc3)

/-- Model of `DeviceLinux.logout`: send `logout`, then close. -/
def linuxLogout (sc : Script) : PyRes × Bool × Script :=
  let (s1, sc1) := sc.nextSend
  match s1 with
  | .exn => (.ff, false, sc1)
  | _ => (.tt, true, sc1)

/-! ## The credential obfuscation codec (`Activity.py`)

Python strings are modelled as lists of Unicode code points, byte strings
as lists of numbers below 256.  A `none` result models a raised
exception (`chr` out of range, a surrogate hitting `.encode("utf-8")`, or
an invalid hex string). -/

/-- The character-wise XOR with the cycled key:
`zip(text, cycle(key))` mapped through `chr(ord(x) ^ ord(y))`. -/
def xorStream (p k : List Nat) : List Nat :=
  if k.length = 0 then []
  else (List.range p.length).map fun i => p.getD i 0 ^^^ k.getD (i % k.length) 0

/-- UTF-8 encoding of one code point, `none` when `chr` or the encoding
would raise (code point out of range, or a surrogate). -/
def utf8EncodeChar (c : Nat) : Option (List Nat) :=
  if c < 128 then some [c]
  else if c < 2048 then some [192 + c / 64, 128 + c % 64]
  else if c < 65536 then
    if 55296 ≤ c && c < 57344 then none
    else some [224 + c / 4096, 128 + c / 64 % 64, 128 + c % 64]
  else if c < 1114112 then
    some [240 + c / 262144, 128 + c / 4096 % 64, 128 + c / 64 % 64, 128 + c % 64]
  else none

/-- UTF-8 encoding of a whole string (`str.encode("utf-8")`). -/
def utf8Encode : List Nat → Option (List Nat)
  | [] => some []
  | c :: cs =>
    match utf8EncodeChar c, utf8Encode cs with
    | some bs, some rest => some (bs ++ rest)
    | _, _ => none

/-- The lowercase hex digit for a value below 16, as a code point. -/
def hexDigitChar (n : Nat) : Nat := if n < 10 then 48 + n else 87 + n

/-- Model of `codecs.encode(bytes, "hex")`: two hex digits per byte. -/
def hexEncode : List Nat → List Nat
  | [] => []
  | b :: bs => hexDigitChar (b / 16) :: hexDigitChar (b % 16) :: hexEncode bs

/-- Model of `Activity.xor_crypt_string` over code-point lists. -/
def xor_crypt_string (plaintext key : List Nat) : Option (List Nat) :=
  match utf8Encode (xorStream plaintext key) with
  | some bytes => some (hexEncode bytes)
  | none => none

/-- Value of one hex digit, `none` on a non-digit. -/
def hexDigitVal (c : Nat) : Option Nat :=
  if 48 ≤ c && c ≤ 57 then some (c - 48)
  else if 97 ≤ c && c ≤ 102 then some (c - 87)
  else if 65 ≤ c && c ≤ 70 then some (c - 55)
  else none

/-- Model of `codecs.decode(s, "hex")`: pairs of hex digits to bytes. -/
def hexDecode : List Nat → Option (List Nat)
  | [] => some []
  | [_] => none
  | c1 :: c2 :: rest =>
    match hexDigitVal c1, hexDigitVal c2, hexDecode rest with
    | some hi, some lo, some bs => some ((16 * hi + lo) :: bs)
    | _, _, _ => none

/-- Model of `Activity.xor_decrypt_string`: hex-decode, then XOR the raw
bytes with the cycled key. -/
def xor_decrypt_string (ciphertext key : List Nat) : Option (List Nat) :=
  match hexDecode ciphertext with
  | some bytes => some (xorStream bytes key)
  | none => none

/-! ## The orchestrator (`Activity.run`)

The per-target device calls are dynamically dispatched over the device
classes above, so one loop iteration is modelled over the outcomes the
five calls can produce, `DevEvents`.  `TargetTrace` records the log lines
and output-sink writes of the iteration, which methods were invoked, and
whether an uncaught exception escaped (aborting the whole run). -/

/-- Outcomes of the five device calls `Activity.run` makes for one target,
together with what the command runner writes to the output sink. -/
structure DevEvents where
  connectOk : Bool
  loginRes : PyRes
  superRes : PyRes
  runRes : PyRes
  runWrites : List String
  logoutRes : PyRes
deriving DecidableEq

/-- What one loop iteration of `Activity.run` did. -/
structure TargetTrace where
  logs : List String
  outs : List String
  superCalled : Bool
  runCalled : Bool
  logoutCalled : Bool
  raised : Bool
deriving DecidableEq

/-- The opening delimiter line written before a target's output. -/
def openDelim (hostname : String) : String :=
  "\n----------------" ++ hostname ++ "--------------\n"

/-- The closing delimiter line written after a target's output. -/
def closeDelim : String :=
  "\n--------------------------------------------------\n"

/-- Steps e-i of one iteration of `Activity.run`, reached once connect,
login and (when requested) superuser have succeeded: write the opening
delimiter, run the commands, log a failed run, log a failed logout, write
the closing delimiter, log the finished line.  An exception in `run` or
`logout` propagates, so everything after it is skipped. -/
def commandPhase (hostname : String) (ev : DevEvents) (l : List String)
    (supC : Bool) : TargetTrace :=
  match ev.runRes with
  | .exn => ⟨l, openDelim hostname :: ev.runWrites, supC, true, false, true⟩
  | r =>
    let l1 := l ++ (if r = PyRes.ff then ["ERROR while running the commmands"] else [])
    match ev.logoutRes with
    | .exn => ⟨l1, openDelim hostname :: ev.runWrites, supC, true, true, true⟩
    | lr =>
      let l2 := l1 ++ (if lr = PyRes.ff then ["ERROR while logging out"] else [])
      ⟨l2 ++ ["Finished commands at " ++ hostname],
       openDelim hostname :: (ev.runWrites ++ [closeDelim]), supC, true, true, false⟩

/-- One full loop iteration of `Activity.run` for one target (`sn` is
`superuserNeeded`): a failed connect, login or superuser logs one line and
`continue`s, skipping everything below it, the logout included. -/
def runTarget (sn : Bool) (hostname : String) (ev : DevEvents) : TargetTrace :=
  if !ev.connectOk then
    ⟨["Unable to connect to " ++ hostname ++ ". Test with a local SSH session."],
     [], false, false, false, false⟩
  else
    let l0 := ["Connected to " ++ hostname]
    match ev.loginRes with
    | .exn => ⟨l0, [], false, false, false, true⟩
    | .ff =>
      ⟨l0 ++ ["Unable to login to " ++ hostname ++ ". \t Test with the default Device type."],
       [], false, false, false, false⟩
    | .tt =>
      if sn then
        match ev.superRes with
        | .exn => ⟨l0, [], true, false, false, true⟩
        | .ff => ⟨l0 ++ ["Unable to superuser at " ++ hostname], [], true, false, false, false⟩
        | .tt => commandPhase hostname ev (l0 ++ ["Superuser at " ++ hostname]) true
      else commandPhase hostname ev l0 false

/-- The traces of the loop of `Activity.run`, in target order; an uncaught
exception aborts the loop at the raising target. -/
def activityTraces (sn : Bool) : List (String × DevEvents) → List TargetTrace
  | [] => []
  | (h, ev) :: rest =>
    let t := runTarget sn h ev
    if t.raised then [t] else t :: activityTraces sn rest

/-- Whether some iteration raised, aborting the run. -/
def anyRaised (ts : List TargetTrace) : Bool := ts.any fun t => t.raised

/-- All log lines `Activity.run` writes, timestamps left aside: the
per-target lines in order, then the run-final lines unless aborted. -/
def activityLogs (sn : Bool) (targets : List (String × DevEvents)) : List String :=
  ((activityTraces sn targets).map TargetTrace.logs).flatten ++
    (if anyRaised (activityTraces sn targets) then [] else ["Finished activity", "END"])

/-- The 21 characters every "finished target" log line starts with. -/
def finTag : List Char := "Finished commands at ".data

/-- Whether a log line is a "finished target" line. -/
def isFinishedLine (s : String) : Bool := decide (s.data.take 21 = finTag)

/-- The number of "finished target" lines among the log lines. -/
def countFinished (logs : List String) : Nat := logs.countP isFinishedLine

/-- A target reaches the command phase when connect and login succeed and,
if superuser is needed, so does the escalation. -/
def reachesCommandPhase (sn : Bool) (ev : DevEvents) : Bool :=
  ev.connectOk && decide (ev.loginRes = PyRes.tt) &&
    (!sn || decide (ev.superRes = PyRes.tt))

/-! ## Log-line helper lemmas -/

theorem take21_ne_finTag (c : Char) (l : List Char) (hc : c ≠ 'F') :
    ¬((c :: l).take 21 = finTag) := by
  intro hEq
  rw [show (21 : Nat) = 20 + 1 from rfl, List.take_succ_cons] at hEq
  have h2 : finTag = 'F' :: "inished commands at ".data := rfl
  rw [h2] at hEq
  injection hEq with h3 _
  exact hc h3

theorem isFinishedLine_head_ne (s : String) (c : Char) (l : List Char)
    (hs : s.data = c :: l) (hc : c ≠ 'F') : isFinishedLine s = false := by
  unfold isFinishedLine
  rw [hs]
  exact decide_eq_false (take21_ne_finTag c l hc)

theorem notFin_unable_connect (h : String) :
    isFinishedLine ("Unable to connect to " ++ h ++ ". Test with a local SSH session.") = false :=
  isFinishedLine_head_ne _ 'U'
    (("nable to connect to ".data ++ h.data) ++ ". Test with a local SSH session.".data)
    (by cases h; rfl) (by decide)

theorem notFin_connected (h : String) :
    isFinishedLine ("Connected to " ++ h) = false :=
  isFinishedLine_head_ne _ 'C' ("onnected to ".data ++ h.data)
    (by cases h; rfl) (by decide)

theorem notFin_unable_login (h : String) :
    isFinishedLine ("Unable to login to " ++ h ++ ". \t Test with the default Device type.") = false :=
  isFinishedLine_head_ne _ 'U'
    (("nable to login to ".data ++ h.data) ++ ". \t Test with the default Device type.".data)
    (by cases h; rfl) (by decide)

theorem notFin_unable_super (h : String) :
    isFinishedLine ("Unable to superuser at " ++ h) = false :=
  isFinishedLine_head_ne _ 'U' ("nable to superuser at ".data ++ h.data)
    (by cases h; rfl) (by decide)

theorem notFin_super_at (h : String) :
    isFinishedLine ("Superuser at " ++ h) = false :=
  isFinishedLine_head_ne _ 'S' ("uperuser at ".data ++ h.data)
    (by cases h; rfl) (by decide)

theorem notFin_err_run : isFinishedLine "ERROR while running the commmands" = false := by decide

theorem notFin_err_logout : isFinishedLine "ERROR while logging out" = false := by decide

theorem notFin_fin_activity : isFinishedLine "Finished activity" = false := by decide

theorem notFin_end_line : isFinishedLine "END" = false := by decide

theorem finLine (h : String) :
    isFinishedLine ("Finished commands at " ++ h) = true := by
  unfold isFinishedLine
  have hd : ("Finished commands at " ++ h).data = finTag ++ h.data := by cases h; rfl
  rw [hd, show (21 : Nat) = finTag.length from rfl, List.take_left]
  exact decide_eq_true rfl

/-! ## Claim theorems: device construction, WLC login, logouts -/

/-- Claim C9: `createDevice` totally returns a device; the type string is
matched case-insensitively against the three known names, anything else
(the empty string included) silently giving the generic `Device`. -/
theorem c9_createDevice (hostname s : String) :
    ((createDevice hostname s).2 = DeviceKind.ciscoIOS ↔ strLower s = "ciscoios") ∧
    ((createDevice hostname s).2 = DeviceKind.ciscoWLC ↔ strLower s = "ciscowlc") ∧
    ((createDevice hostname s).2 = DeviceKind.linux ↔ strLower s = "linux") ∧
    ((createDevice hostname s).2 = DeviceKind.generic ↔
      ¬(strLower s = "ciscoios" ∨ strLower s = "ciscowlc" ∨ strLower s = "linux")) := by
  unfold createDevice
  split_ifs <;> simp_all

/-- Claim C9, witness: the empty type string yields the generic device. -/
theorem c9_witness : (createDevice "host" "").2 = DeviceKind.generic :=
  (c9_createDevice "host" "").2.2.2.mpr (by decide)

/-- Claim C3 (code bug): on a WLC session where the drain after re-sending
the password yields no chunk, `DeviceCiscoWLC.login` does not return a
boolean at all: `data` is never assigned, so `data.find(">")` raises
`UnboundLocalError`, which the `except` clause does not catch and which
therefore propagates into `Activity.run` and aborts the whole run. -/
theorem c3_wlcLogin_unbound :
    wlcLogin ⟨[[], []], [SendEv.acc, SendEv.acc]⟩ = (PyRes.exn, ⟨[], []⟩) := rfl

/-- Claim C4, counterexample: a transport exception on the very first
`send` of the IOS pre-closure dialogue is caught and reported as a failed
logout, but the transport close is never invoked (middle component). -/
theorem c4_counterexample :
    iosLogout ⟨[[]], [SendEv.exn]⟩ = (PyRes.ff, false, ⟨[], []⟩) := rfl

theorem iosLogout_close (sc : Script) :
    ((iosLogout sc).1 = PyRes.ff → (iosLogout sc).2.1 = false) ∧
    ((iosLogout sc).1 = PyRes.tt → (iosLogout sc).2.1 = true) := by
  obtain ⟨ds, ss⟩ := sc
  rcases ds with _ | ⟨d, ds⟩ <;> rcases ss with _ | ⟨s1, _ | ⟨s2, ss⟩⟩ <;>
    (try cases s1) <;> (try cases s2) <;> (try cases hcd : chunksOk d) <;>
      simp_all [iosLogout, chunksOk, Script.nextDrain, Script.nextSend]

theorem lastString_nil : lastString [] = "" := rfl

theorem strContains_empty_save : strContains "" "save?" = false := by decide

theorem wlcLogout_close (sc : Script) :
    ((wlcLogout sc).1 = PyRes.ff → (wlcLogout sc).2.1 = false) ∧
    ((wlcLogout sc).1 = PyRes.tt → (wlcLogout sc).2.1 = true) := by
  obtain ⟨ds, ss⟩ := sc
  rcases ds with _ | ⟨d, ds⟩ <;> rcases ss with _ | ⟨s1, _ | ⟨s2, _ | ⟨s3, ss⟩⟩⟩ <;>
    (try cases s1) <;> (try cases s2) <;> (try cases s3) <;>
    (try cases hcd : chunksOk d) <;>
    (try cases hsv : strContains (lastString d) "save?") <;>
      simp_all [wlcLogout, chunksOk, Script.nextDrain, Script.nextSend, lastString_nil,
        strContains_empty_save]

theorem linuxLogout_close (sc : Script) :
    ((linuxLogout sc).1 = PyRes.ff → (linuxLogout sc).2.1 = false) ∧
    ((linuxLogout sc).1 = PyRes.tt → (linuxLogout sc).2.1 = true) := by
  obtain ⟨ds, ss⟩ := sc
  rcases ss with _ | ⟨s1, ss⟩ <;> (try cases s1) <;>
    simp_all [linuxLogout, Script.nextSend]

/-- Claim C4, amended: for every device variant a transport exception
during the pre-closure dialogue is caught and reported by returning false,
but the transport close is then NOT invoked: the close runs exactly when
the dialogue completes and the method returns true.  (A decode error in
the dialogue's drain is not caught at all and propagates, `exn`.) -/
theorem c4_logout_no_close (sc : Script) :
    ((iosLogout sc).1 = PyRes.ff → (iosLogout sc).2.1 = false) ∧
    ((iosLogout sc).1 = PyRes.tt → (iosLogout sc).2.1 = true) ∧
    ((wlcLogout sc).1 = PyRes.ff → (wlcLogout sc).2.1 = false) ∧
    ((wlcLogout sc).1 = PyRes.tt → (wlcLogout sc).2.1 = true) ∧
    ((linuxLogout sc).1 = PyRes.ff → (linuxLogout sc).2.1 = false) ∧
    ((linuxLogout sc).1 = PyRes.tt → (linuxLogout sc).2.1 = true) :=
  ⟨(iosLogout_close sc).1, (iosLogout_close sc).2,
   (wlcLogout_close sc).1, (wlcLogout_close sc).2,
   (linuxLogout_close sc).1, (linuxLogout_close sc).2⟩

/-- Claim C4, witness: a Linux logout whose `logout` send raises reports
failure and never reaches the close. -/
theorem c4_witness :
    (linuxLogout ⟨[], [SendEv.exn]⟩).2.1 = false :=
  (c4_logout_no_close ⟨[], [SendEv.exn]⟩).2.2.2.2.1 (by decide)

/-! ## Claim theorems: the orchestrator loop -/

/-- Claim C2, counterexample: escalation requested and failed; no delimiter
lines are written (`outs = []`), but the logout is NOT invoked either — the
loop `continue`s straight to the next target. -/
theorem c2_counterexample :
    (runTarget true "h" ⟨true, PyRes.tt, PyRes.ff, PyRes.tt, [], PyRes.tt⟩).logoutCalled = false ∧
    (runTarget true "h" ⟨true, PyRes.tt, PyRes.ff, PyRes.tt, [], PyRes.tt⟩).outs = [] := by
  decide

/-- Claim C2, amended: when escalation is requested and fails, the target
produces no output-sink writes at all (so no delimiter lines), no commands
are run, and the device's logout is NOT invoked: the orchestrator moves
directly to the next target. -/
theorem c2_escalation_skip (hostname : String) (ev : DevEvents)
    (hc : ev.connectOk = true) (hl : ev.loginRes = PyRes.tt)
    (hs : ev.superRes = PyRes.ff) :
    (runTarget true hostname ev).outs = [] ∧
    (runTarget true hostname ev).runCalled = false ∧
    (runTarget true hostname ev).logoutCalled = false := by
  simp [runTarget, hc, hl, hs]

/-- Claim C2, witness. -/
theorem c2_witness :
    (runTarget true "h2" ⟨true, PyRes.tt, PyRes.ff, PyRes.tt, ["x"], PyRes.tt⟩).outs = [] ∧
    (runTarget true "h2" ⟨true, PyRes.tt, PyRes.ff, PyRes.tt, ["x"], PyRes.tt⟩).runCalled = false ∧
    (runTarget true "h2" ⟨true, PyRes.tt, PyRes.ff, PyRes.tt, ["x"], PyRes.tt⟩).logoutCalled = false :=
  c2_escalation_skip "h2" _ rfl rfl rfl

/-- Claim C8, counterexample: a target reaches the command phase, but its
logout raises (e.g. a decode error in the IOS logout drain, which its
`except` clause does not catch); the exception propagates before the
closing delimiter write, so the sink gets the opening delimiter only. -/
theorem c8_counterexample :
    (runTarget false "h" ⟨true, PyRes.tt, PyRes.tt, PyRes.tt, [], PyRes.exn⟩).runCalled = true ∧
    (runTarget false "h" ⟨true, PyRes.tt, PyRes.tt, PyRes.tt, [], PyRes.exn⟩).outs
      = [openDelim "h"] ∧
    closeDelim ∉ [openDelim "h"] := by
  decide

/-- Claim C8, amended: for every target whose command phase is reached and
whose run and logout calls return normally (no uncaught exception), the
output sink receives exactly the opening delimiter, then the command
runner's writes, then the closing delimiter. -/
theorem c8_delimited_block (sn : Bool) (hostname : String) (ev : DevEvents)
    (hc : ev.connectOk = true) (hl : ev.loginRes = PyRes.tt)
    (hs : sn = true → ev.superRes = PyRes.tt)
    (hr : ev.runRes ≠ PyRes.exn) (ho : ev.logoutRes ≠ PyRes.exn) :
    (runTarget sn hostname ev).outs = openDelim hostname :: (ev.runWrites ++ [closeDelim]) := by
  cases sn <;>
    rcases hr2 : ev.runRes with _ | _ | _ <;> rcases ho2 : ev.logoutRes with _ | _ | _ <;>
      simp_all [runTarget, commandPhase]

/-- Claim C8, witness. -/
theorem c8_witness :
    (runTarget false "h3" ⟨true, PyRes.tt, PyRes.tt, PyRes.tt, ["out"], PyRes.tt⟩).outs
      = openDelim "h3" :: (["out"] ++ [closeDelim]) :=
  c8_delimited_block false "h3" _ rfl rfl (by intro h; cases h) (by decide) (by decide)

/-! ## Claim theorems: IOS escalation and the command runner -/

/-- Claim C6: `DeviceCiscoIOS.superuser` returns true only if the text
drained after `enable` shows `Password:` and the text drained after the
escalation password shows `#`; and when `Password:` is absent from the
first drain (which completed without errors), it returns false without
ever sending the password. -/
theorem c6_iosSuperuser (pw : String) (d1 d2 d3 : List Chunk)
    (ds : List (List Chunk)) (s1 s2 : SendEv) (ss : List SendEv) :
    ((iosSuperuser pw ⟨d1 :: d2 :: d3 :: ds, s1 :: s2 :: ss⟩).1 = PyRes.tt →
      strContains (lastString d2) "Password:" = true ∧
      strContains (lastString d3) "#" = true) ∧
    (chunksOk d1 = true → s1 ≠ SendEv.exn → chunksOk d2 = true →
      strContains (lastString d2) "Password:" = false →
      (iosSuperuser pw ⟨d1 :: d2 :: d3 :: ds, s1 :: s2 :: ss⟩).1 = PyRes.ff ∧
      (iosSuperuser pw ⟨d1 :: d2 :: d3 :: ds, s1 :: s2 :: ss⟩).2.1 = false) := by
  cases hc1 : chunksOk d1 <;> cases s1 <;> cases hc2 : chunksOk d2 <;>
    cases hp : strContains (lastString d2) "Password:" <;> cases s2 <;>
    cases hc3 : chunksOk d3 <;> cases hh : strContains (lastString d3) "#" <;>
      simp_all [iosSuperuser, Script.nextDrain, Script.nextSend]

/-- Claim C6, witness: drained text after `enable` without `Password:`
gives a false result and no password send. -/
theorem c6_witness :
    (iosSuperuser "pw" ⟨[[], [Chunk.ok "router>"], []], [SendEv.acc, SendEv.acc]⟩).1 = PyRes.ff ∧
    (iosSuperuser "pw" ⟨[[], [Chunk.ok "router>"], []], [SendEv.acc, SendEv.acc]⟩).2.1 = false :=
  (c6_iosSuperuser "pw" [] [Chunk.ok "router>"] [] [] SendEv.acc SendEv.acc []).2
    (by decide) (by decide) (by decide) (by decide)

theorem drainWrite_eq (d : List Chunk) (file : List String) :
    drainWrite d file = (file ++ okStrs d, chunksOk d) := by
  induction d generalizing file with
  | nil => simp [drainWrite, okStrs, chunksOk]
  | cons c rest ih => cases c <;> simp [drainWrite, okStrs, chunksOk, ih]

theorem deviceRunLoop_result (cs : List String) (sc : Script) (file : List String) :
    (deviceRunLoop cs sc file).1 = noRunFailureLoop cs.length sc := by
  induction cs generalizing sc file with
  | nil => rfl
  | cons c cs ih =>
    obtain ⟨ds, ss⟩ := sc
    rcases ss with _ | ⟨s, ss⟩
    · rcases ds with _ | ⟨d, ds⟩
      · simpa [deviceRunLoop, noRunFailureLoop, Script.nextSend, Script.nextDrain,
          drainWrite_eq, okStrs, chunksOk] using ih ⟨[], []⟩ file
      · cases hcd : chunksOk d
        · simp [deviceRunLoop, noRunFailureLoop, Script.nextSend, Script.nextDrain,
            drainWrite_eq, hcd]
        · simp [deviceRunLoop, noRunFailureLoop, Script.nextSend, Script.nextDrain,
            drainWrite_eq, hcd, ih]
    · cases s
      · rcases ds with _ | ⟨d, ds⟩
        · simpa [deviceRunLoop, noRunFailureLoop, Script.nextSend, Script.nextDrain,
            drainWrite_eq, okStrs, chunksOk] using ih ⟨[], ss⟩ file
        · cases hcd : chunksOk d
          · simp [deviceRunLoop, noRunFailureLoop, Script.nextSend, Script.nextDrain,
              drainWrite_eq, hcd]
          · simp [deviceRunLoop, noRunFailureLoop, Script.nextSend, Script.nextDrain,
              drainWrite_eq, hcd, ih]
      · simp [deviceRunLoop, noRunFailureLoop, Script.nextSend]
      · simp [deviceRunLoop, noRunFailureLoop, Script.nextSend]

theorem deviceRunLoop_file (cs : List String) (sc : Script) (file : List String) :
    ∃ ext, (deviceRunLoop cs sc file).2.1 = file ++ ext := by
  induction cs generalizing sc file with
  | nil => exact ⟨[], by simp [deviceRunLoop]⟩
  | cons c cs ih =>
    obtain ⟨ds, ss⟩ := sc
    rcases ss with _ | ⟨s, ss⟩
    · rcases ds with _ | ⟨d, ds⟩
      · obtain ⟨ext, hext⟩ := ih ⟨[], []⟩ file
        exact ⟨ext, by simpa [deviceRunLoop, Script.nextSend, Script.nextDrain,
          drainWrite_eq, okStrs, chunksOk] using hext⟩
      · cases hcd : chunksOk d
        · exact ⟨okStrs d, by simp [deviceRunLoop, Script.nextSend, Script.nextDrain,
            drainWrite_eq, hcd]⟩
        · obtain ⟨ext, hext⟩ := ih ⟨ds, []⟩ (file ++ okStrs d)
          exact ⟨okStrs d ++ ext, by simp [deviceRunLoop, Script.nextSend,
            Script.nextDrain, drainWrite_eq, hcd, hext]⟩
    · cases s
      · rcases ds with _ | ⟨d, ds⟩
        · obtain ⟨ext, hext⟩ := ih ⟨[], ss⟩ file
          exact ⟨ext, by simpa [deviceRunLoop, Script.nextSend, Script.nextDrain,
            drainWrite_eq, okStrs, chunksOk] using hext⟩
        · cases hcd : chunksOk d
          · exact ⟨okStrs d, by simp [deviceRunLoop, Script.nextSend, Script.nextDrain,
              drainWrite_eq, hcd]⟩
          · obtain ⟨ext, hext⟩ := ih ⟨ds, ss⟩ (file ++ okStrs d)
            exact ⟨okStrs d ++ ext, by simp [deviceRunLoop, Script.nextSend,
              Script.nextDrain, drainWrite_eq, hcd, hext]⟩
      · exact ⟨[], by simp [deviceRunLoop, Script.nextSend]⟩
      · exact ⟨[], by simp [deviceRunLoop, Script.nextSend]⟩

theorem deviceRun_result (commands : List String) (sc : Script) (file : List String) :
    (deviceRun commands sc file).1 = noRunFailure commands.length sc := by
  obtain ⟨ds, ss⟩ := sc
  rcases ds with _ | ⟨d, ds⟩
  · simp [deviceRun, noRunFailure, Script.nextDrain, drainWrite_eq, chunksOk,
      deviceRunLoop_result]
  · cases hcd : chunksOk d
    · simp [deviceRun, noRunFailure, Script.nextDrain, drainWrite_eq, hcd]
    · simp [deviceRun, noRunFailure, Script.nextDrain, drainWrite_eq, hcd,
        deviceRunLoop_result]

theorem deviceRun_file (commands : List String) (sc : Script) (file : List String) :
    ∃ ext, (deviceRun commands sc file).2.1 = file ++ ext := by
  obtain ⟨ds, ss⟩ := sc
  rcases ds with _ | ⟨d, ds⟩
  · obtain ⟨ext, hext⟩ := deviceRunLoop_file commands ⟨[], ss⟩ file
    exact ⟨ext, by simpa [deviceRun, Script.nextDrain, drainWrite_eq, okStrs,
      chunksOk] using hext⟩
  · cases hcd : chunksOk d
    · exact ⟨okStrs d, by simp [deviceRun, Script.nextDrain, drainWrite_eq, hcd]⟩
    · obtain ⟨ext, hext⟩ := deviceRunLoop_file commands ⟨ds, ss⟩ (file ++ okStrs d)
      exact ⟨okStrs d ++ ext, by simp [deviceRun, Script.nextDrain, drainWrite_eq,
        hcd, hext]⟩

/-- Claim C7: `Device.run` returns false exactly when a failing event
occurs (a zero-byte send, a transport exception, or a decode error in a
drain, the initial residual drain included); the file only ever grows (no
rollback of earlier writes); and at the orchestrator a failed command
phase still has logout invoked, the run going on. -/
theorem c7_run_failure (commands : List String) (sc : Script) (file : List String)
    (sn : Bool) (hostname : String) (ev : DevEvents) :
    ((deviceRun commands sc file).1 = false ↔ noRunFailure commands.length sc = false) ∧
    (∃ ext, (deviceRun commands sc file).2.1 = file ++ ext) ∧
    (ev.connectOk = true → ev.loginRes = PyRes.tt →
      (sn = true → ev.superRes = PyRes.tt) → ev.runRes = PyRes.ff →
      (runTarget sn hostname ev).logoutCalled = true ∧
      (ev.logoutRes ≠ PyRes.exn → (runTarget sn hostname ev).raised = false)) := by
  refine ⟨by rw [deviceRun_result], deviceRun_file commands sc file, ?_⟩
  intro hc hl hs hr
  cases sn <;> rcases ho2 : ev.logoutRes with _ | _ | _ <;>
    simp_all [runTarget, commandPhase]

/-- Claim C7, witness: a zero-byte send on the only command makes the run
fail, yet logout is still called on that target. -/
theorem c7_witness :
    (runTarget false "h4" ⟨true, PyRes.tt, PyRes.tt, PyRes.ff, [], PyRes.tt⟩).logoutCalled = true :=
  ((c7_run_failure ["show version"] ⟨[[]], [SendEv.zero]⟩ [] false "h4"
    ⟨true, PyRes.tt, PyRes.tt, PyRes.ff, [], PyRes.tt⟩).2.2 rfl rfl
    (by intro h; cases h) rfl).1

/-- Claim C10: the residual unsolicited output drained before the first
command is appended to the output sink ahead of everything else the
command phase writes, and the command runner's writes land inside the
target's delimited block, right after the opening delimiter. -/
theorem c10_residual_kept (commands : List String) (d : List Chunk)
    (ds : List (List Chunk)) (ss : List SendEv) (file : List String)
    (sn : Bool) (hostname : String) (ev : DevEvents) :
    (∃ rest, (deviceRun commands ⟨d :: ds, ss⟩ file).2.1 = file ++ okStrs d ++ rest) ∧
    (ev.connectOk = true → ev.loginRes = PyRes.tt → (sn = true → ev.superRes = PyRes.tt) →
      ∃ tl, (runTarget sn hostname ev).outs = openDelim hostname :: (ev.runWrites ++ tl)) := by
  constructor
  · cases hcd : chunksOk d
    · exact ⟨[], by simp [deviceRun, Script.nextDrain, drainWrite_eq, hcd]⟩
    · obtain ⟨ext, hext⟩ := deviceRunLoop_file commands ⟨ds, ss⟩ (file ++ okStrs d)
      exact ⟨ext, by simp [deviceRun, Script.nextDrain, drainWrite_eq, hcd, hext]⟩
  · intro hc hl hs
    cases sn <;> rcases hr2 : ev.runRes with _ | _ | _ <;>
      rcases ho2 : ev.logoutRes with _ | _ | _ <;>
        simp_all [runTarget, commandPhase]

/-- Claim C10, witness. -/
theorem c10_witness :
    (∃ rest, (deviceRun ["c"] ⟨[[Chunk.ok "banner"]], []⟩ []).2.1
      = [] ++ okStrs [Chunk.ok "banner"] ++ rest) ∧
    ∃ tl, (runTarget false "h5" ⟨true, PyRes.tt, PyRes.tt, PyRes.tt, ["w"], PyRes.tt⟩).outs
      = openDelim "h5" :: (["w"] ++ tl) :=
  ⟨(c10_residual_kept ["c"] [Chunk.ok "banner"] [] [] [] false "h5"
      ⟨true, PyRes.tt, PyRes.tt, PyRes.tt, ["w"], PyRes.tt⟩).1,
   (c10_residual_kept ["c"] [Chunk.ok "banner"] [] [] [] false "h5"
      ⟨true, PyRes.tt, PyRes.tt, PyRes.tt, ["w"], PyRes.tt⟩).2 rfl rfl (by intro h; cases h)⟩

/-! ## Claim C1: counting the "finished target" log lines -/

theorem countFinished_runTarget (sn : Bool) (hostname : String) (ev : DevEvents)
    (h : (runTarget sn hostname ev).raised = false) :
    countFinished (runTarget sn hostname ev).logs =
      if reachesCommandPhase sn ev then 1 else 0 := by
  rcases hco : ev.connectOk with _ | _ <;>
    rcases hlr : ev.loginRes with _ | _ | _ <;>
    cases sn <;>
    rcases hsr : ev.superRes with _ | _ | _ <;>
    rcases hrr : ev.runRes with _ | _ | _ <;>
    rcases hor : ev.logoutRes with _ | _ | _ <;>
      simp_all [runTarget, commandPhase, reachesCommandPhase, countFinished,
        List.countP_cons, List.countP_append, notFin_unable_connect, notFin_connected,
        notFin_unable_login, notFin_unable_super, notFin_super_at, notFin_err_run,
        notFin_err_logout, finLine]

theorem activityLogs_cons (sn : Bool) (hn : String) (ev : DevEvents)
    (rest : List (String × DevEvents)) (h : (runTarget sn hn ev).raised = false) :
    activityLogs sn ((hn, ev) :: rest) =
      (runTarget sn hn ev).logs ++ activityLogs sn rest := by
  simp [activityLogs, activityTraces, h, anyRaised, List.any_cons, List.append_assoc]

/-- Claim C1, amended: provided no step raises an uncaught exception, the
number of "Finished commands at" log lines equals the number of targets
that reached the command phase — NOT the full length of the target list: a
target whose connect, login or requested escalation fails is skipped with
`continue` before the finished line is written. -/
theorem c1_finished_count (sn : Bool) (targets : List (String × DevEvents))
    (h : ∀ p ∈ targets, (runTarget sn p.1 p.2).raised = false) :
    countFinished (activityLogs sn targets) =
      (targets.filter fun p => reachesCommandPhase sn p.2).length := by
  induction targets with
  | nil =>
    simp [activityLogs, activityTraces, anyRaised, countFinished, List.countP_cons,
      notFin_fin_activity, notFin_end_line]
  | cons p rest ih =>
    obtain ⟨hn, ev⟩ := p
    have hp : (runTarget sn hn ev).raised = false := h (hn, ev) (by simp)
    have hr : ∀ q ∈ rest, (runTarget sn q.1 q.2).raised = false :=
      fun q hq => h q (List.mem_cons_of_mem _ hq)
    rw [activityLogs_cons sn hn ev rest hp]
    have happ : countFinished ((runTarget sn hn ev).logs ++ activityLogs sn rest) =
        countFinished (runTarget sn hn ev).logs + countFinished (activityLogs sn rest) :=
      List.countP_append _ _ _
    rw [happ, countFinished_runTarget sn hn ev hp, ih hr]
    rcases hrc : reachesCommandPhase sn ev with _ | _ <;>
      simp [List.filter_cons, hrc, Nat.add_comm]

/-- Claim C1, counterexample: a single target whose connect fails produces
zero "Finished commands at" lines, not one line per target. -/
theorem c1_counterexample :
    countFinished (activityLogs false
      [("h", ⟨false, PyRes.tt, PyRes.tt, PyRes.tt, [], PyRes.tt⟩)]) = 0 ∧
    [("h", (⟨false, PyRes.tt, PyRes.tt, PyRes.tt, [], PyRes.tt⟩ : DevEvents))].length = 1 := by
  decide

/-- Claim C1, witness. -/
theorem c1_witness :
    countFinished (activityLogs false
      [("h", ⟨true, PyRes.tt, PyRes.tt, PyRes.tt, [], PyRes.tt⟩)]) =
      ([("h", (⟨true, PyRes.tt, PyRes.tt, PyRes.tt, [], PyRes.tt⟩ : DevEvents))].filter
        fun p => reachesCommandPhase false p.2).length :=
  c1_finished_count false _ (by decide)

/-! ## Claim C5: the XOR credential codec -/

theorem xorStream_length (p k : List Nat) (hk : k.length ≠ 0) :
    (xorStream p k).length = p.length := by
  simp [xorStream, hk]

theorem getD_of_lt (l : List Nat) (n : Nat) (h : n < l.length) : l.getD n 0 = l[n] := by
  rw [List.getD_eq_getElem?_getD, List.getElem?_eq_getElem h]
  rfl

theorem xorStream_getElem? (p k : List Nat) (hk : k.length ≠ 0) (i : Nat)
    (hi : i < p.length) :
    (xorStream p k)[i]? = some (p.getD i 0 ^^^ k.getD (i % k.length) 0) := by
  simp [xorStream, hk, List.getElem?_map, List.getElem?_range hi]

theorem xorStream_getD (p k : List Nat) (hk : k.length ≠ 0) (i : Nat)
    (hi : i < p.length) :
    (xorStream p k).getD i 0 = p.getD i 0 ^^^ k.getD (i % k.length) 0 := by
  rw [List.getD_eq_getElem?_getD, xorStream_getElem? p k hk i hi]
  rfl

theorem xorStream_lt (p k : List Nat) (hp : ∀ x ∈ p, x < 128)
    (hkk : ∀ y ∈ k, y < 128) : ∀ z ∈ xorStream p k, z < 128 := by
  intro z hz
  unfold xorStream at hz
  by_cases hk : k.length = 0
  · simp [hk] at hz
  · simp only [hk, if_false, List.mem_map, List.mem_range] at hz
    obtain ⟨i, hi, rfl⟩ := hz
    have h1 : p.getD i 0 < 128 := by
      rw [getD_of_lt p i hi]
      exact hp _ (List.getElem_mem hi)
    have hklt : i % k.length < k.length := Nat.mod_lt _ (Nat.pos_of_ne_zero hk)
    have h2 : k.getD (i % k.length) 0 < 128 := by
      rw [getD_of_lt k _ hklt]
      exact hkk _ (List.getElem_mem hklt)
    have h128 : (128 : Nat) = 2 ^ 7 := by norm_num
    rw [h128] at h1 h2 ⊢
    exact Nat.xor_lt_two_pow h1 h2

theorem utf8Encode_ascii (l : List Nat) (h : ∀ x ∈ l, x < 128) :
    utf8Encode l = some l := by
  induction l with
  | nil => rfl
  | cons c cs ih =>
    have hc : c < 128 := h c (by simp)
    have ihh := ih fun x hx => h x (by simp [hx])
    simp [utf8Encode, utf8EncodeChar, hc, ihh]

theorem hexDigitRound (n : Nat) (h : n < 16) :
    hexDigitVal (hexDigitChar n) = some n := by
  have hall : ∀ m < 16, hexDigitVal (hexDigitChar m) = some m := by decide
  exact hall n h

theorem hexDecode_encode (l : List Nat) (h : ∀ b ∈ l, b < 256) :
    hexDecode (hexEncode l) = some l := by
  induction l with
  | nil => rfl
  | cons b bs ih =>
    have hb : b < 256 := h b (by simp)
    have ihh := ih fun x hx => h x (by simp [hx])
    have h1 : hexDigitVal (hexDigitChar (b / 16)) = some (b / 16) :=
      hexDigitRound _ ((Nat.div_lt_iff_lt_mul (by norm_num)).mpr (by omega))
    have h2 : hexDigitVal (hexDigitChar (b % 16)) = some (b % 16) :=
      hexDigitRound _ (Nat.mod_lt _ (by norm_num))
    simp [hexEncode, hexDecode, h1, h2, ihh, Nat.div_add_mod]

theorem xorStream_twice (p k : List Nat) (hk : k.length ≠ 0) :
    xorStream (xorStream p k) k = p := by
  have hlen : (xorStream p k).length = p.length := xorStream_length p k hk
  apply List.ext_getElem?
  intro n
  by_cases hn : n < p.length
  · have hn2 : n < (xorStream p k).length := by rw [hlen]; exact hn
    rw [xorStream_getElem? _ k hk n hn2, xorStream_getD p k hk n hn,
      Nat.xor_cancel_right, List.getElem?_eq_getElem hn, getD_of_lt p n hn]
  · have hge : p.length ≤ n := Nat.le_of_not_lt hn
    rw [List.getElem?_eq_none hge, List.getElem?_eq_none
      (by rw [xorStream_length _ k hk, hlen]; exact hge)]

/-- Claim C5, counterexample: with the non-ASCII plaintext `"¡"` (code
point 161) and the key `"a"` (97), the XOR gives 192, which UTF-8-encodes
to two bytes before hex-encoding, while decoding XORs the raw bytes, so the
round trip returns the two-character string with points 162, 225 — not the
original plaintext. -/
theorem c5_counterexample :
    xor_crypt_string [161] [97] = some [99, 51, 56, 48] ∧
    xor_decrypt_string [99, 51, 56, 48] [97] = some [162, 225] ∧
    ([162, 225] : List Nat) ≠ [161] := by
  decide

/-- Claim C5, amended: the codec round-trips on every plaintext and
non-empty key whose code points are all ASCII (below 128) — in particular
on ASCII credentials; in general the claim fails because the scrambled
text is UTF-8-encoded before hex-encoding but the decoder XORs the raw
decoded bytes. -/
theorem c5_ascii_roundtrip (p k : List Nat) (hk : k ≠ [])
    (hp : ∀ x ∈ p, x < 128) (hkk : ∀ y ∈ k, y < 128) :
    ∃ c, xor_crypt_string p k = some c ∧ xor_decrypt_string c k = some p := by
  have hk0 : k.length ≠ 0 := by simpa using hk
  have hall : ∀ z ∈ xorStream p k, z < 128 := xorStream_lt p k hp hkk
  refine ⟨hexEncode (xorStream p k), ?_, ?_⟩
  · unfold xor_crypt_string
    rw [utf8Encode_ascii _ hall]
  · unfold xor_decrypt_string
    rw [hexDecode_encode _ fun b hb => lt_trans (hall b hb) (by norm_num)]
    show some (xorStream (xorStream p k) k) = some p
    rw [xorStream_twice p k hk0]

/-- Claim C5, witness: the ASCII plaintext "hi" with key "k" round-trips. -/
theorem c5_witness :
    ∃ c, xor_crypt_string [104, 105] [107] = some c ∧
      xor_decrypt_string c [107] = some [104, 105] :=
  c5_ascii_roundtrip [104, 105] [107] (by decide) (by decide) (by decide)

end SSHRC
